import Mathlib

/-!
Verification development for `src/prefect/engine/executors/dask.py`:
the `DaskExecutor` (distributed backend) and `SynchronousExecutor` (local
lazy backend) adapter classes.

Shallow embedding conventions:

* Python `dict`s are modelled as association lists (`PyDict`) with unique
  keys; `dget`/`dpopD`/`dset`/`dupdate`/`deraseAll` mirror `d.get`,
  `d.pop(k, default)`, `d[k] = v`, `d.update(e)` and key removal, with
  Python's insertion-order semantics (overwriting keeps the key's position,
  a new key is appended at the end).
* The `None` key of `maps` / `upstream_states` is the `none` of `Option K`.
* The distributed cluster backend (`dask.distributed.Client`) is a list of
  submitted task records (`Cluster`); a future is the index of its task
  record.  Each record carries the submitted call's fingerprint (`spec`),
  the value the task eventually computes (`result`) and how long it runs
  (`duration`), so that gathering can be compared against completion order.
* The local lazy engine (`dask.delayed` / `dask.compute`) is a growing list
  of graph nodes (`SyncGraph`); a future is the node's index and forcing a
  node yields its stored value.
* Fallible Python code returns `Except PyErr`.
-/

namespace PrefectDask

/-! ### Python dict model -/

/-- A Python dict: an insertion-ordered association list with unique keys. -/
abbrev PyDict (K V : Type) := List (K × V)

/-- `d.get(k)`: the value stored under `k`, if any (first match). -/
def dget {K V : Type} [DecidableEq K] : PyDict K V → K → Option V
  | [], _ => none
  | (k0, v0) :: rest, k => if k = k0 then some v0 else dget rest k

/-- `k in d`: whether the dict has an entry for `k`. -/
def dhas {K V : Type} [DecidableEq K] (d : PyDict K V) (k : K) : Bool :=
  (dget d k).isSome

/-- Removal of every entry stored under `k` (on a unique-keyed dict this is
Python's deletion of the key). -/
def deraseAll {K V : Type} [DecidableEq K] : PyDict K V → K → PyDict K V
  | [], _ => []
  | (k0, v0) :: rest, k =>
    if k0 = k then deraseAll rest k else (k0, v0) :: deraseAll rest k

/-- `d.pop(k, default)`: the value under `k` (or `default`), paired with the
dict with `k` removed. -/
def dpopD {K V : Type} [DecidableEq K] (d : PyDict K V) (k : K) (dflt : V) :
    V × PyDict K V :=
  ((dget d k).getD dflt, deraseAll d k)

/-- `d[k] = v`: overwrite in place if `k` is present, else append. -/
def dset {K V : Type} [DecidableEq K] : PyDict K V → K → V → PyDict K V
  | [], k, v => [(k, v)]
  | (k0, v0) :: rest, k, v =>
    if k0 = k then (k0, v) :: rest else (k0, v0) :: dset rest k v

/-- `d.update(e)`: set every entry of `e` in `d`, in `e`'s order. -/
def dupdate {K V : Type} [DecidableEq K] (d e : PyDict K V) : PyDict K V :=
  e.foldl (fun acc p => dset acc p.1 p.2) d

/-! ### Python error kinds relevant to the executors -/

/-- The error kinds the embedded code can surface.  `timeoutError` is the
backend's distinct "did not finish in time" failure
(`distributed.TimeoutError`); `taskError` is a task's own execution failure
re-raised at gather time; `attributeError` is Python's `AttributeError`
(e.g. calling a method on `None`); `keyError` stands for an invalid future
handle. -/
inductive PyErr where
  | attributeError
  | keyError
  | timeoutError
  | taskError
deriving DecidableEq

/-- Whether an `Except` computation finished without raising. -/
def isOkE {E A : Type} : Except E A → Bool
  | .ok _ => true
  | .error _ => false

/-! ### Upstream-state values (DaskExecutor side)

In `upstream_states`, a keyed entry holds a single state while the
non-keyed (`None`) entry holds a list of states; `UVal` is that
heterogeneous value. -/

/-- A value of the `upstream_states` dict handled by `DaskExecutor.map`:
either one state (`st`, keyed entries) or a list of states (`lst`, the
non-keyed entry). -/
inductive UVal (S : Type) where
  | st : S → UVal S
  | lst : List S → UVal S
deriving DecidableEq

/-- Python's `list(...)` coercion as used on non-keyed entries; non-keyed
entries always hold `UVal.lst`, a single state is coerced to a singleton
for totality. -/
def UVal.toPyList {S : Type} : UVal S → List S
  | .st s => [s]
  | .lst l => l

/-- The number of rows `dict_to_list` produces: the length of the shortest
per-key element list (all equal in a well-formed fan-out). -/
def dtlLen {K S : Type} : PyDict K (List S) → Nat
  | [] => 0
  | p :: rest => rest.foldl (fun n q => min n q.2.length) p.2.length

/-- Modelled from the spec: `dict_to_list` lives in
`prefect.utilities.executors`, which is imported by the executors but
absent from `src/`.  Per the spec's fan-out protocol, each child receives
"the i-th element of every mapped input": `dict_to_list` transposes a dict
of per-key element lists into a list of per-element dicts, row `i` mapping
each key of `maps` to the i-th element of that key's list. -/
def dict_to_list {K S : Type} [DecidableEq K] (maps : PyDict K (List S)) :
    List (PyDict K S) :=
  (List.range (dtlLen maps)).map
    (fun i => maps.filterMap (fun p => p.2[i]?.map (fun v => (p.1, v))))

/-! ### DaskExecutor.map fan-out organizer (`mapper`) -/

/-- What the fan-out organizer produces: the `upstream_states` snapshot
serialized by each child `client.submit` call (in child order), and the
organizer-local `upstream_states` dict as it stands after the loop. -/
structure MapperOut (K S : Type) where
  snapshots : List (PyDict (Option K) (UVal S))
  finalUS : PyDict (Option K) (UVal S)
deriving DecidableEq

/-- `DaskExecutor.map.mapper` (src/prefect/engine/executors/dask.py,
lines 76-92), translated step for step:

```
non_keyed = upstream_states.pop(None, [])
states = dict_to_list(maps)
for elem in states:
    upstream_states.update(elem)
    upstream_states[None] = list(upstream_states.get(None, [])) + non_keyed
    futures.append(client.submit(fn, *args, upstream_states=upstream_states, **kwargs))
```

Each `client.submit` serializes its arguments at submission time, so the
child task is recorded as the snapshot of `upstream_states` at that point;
resolving the child's future applies `fn` to that snapshot (the `*args` /
`**kwargs` threaded through unchanged are not modelled). -/
def mapper {K S : Type} [DecidableEq K] (maps : PyDict (Option K) (List S))
    (us0 : PyDict (Option K) (UVal S)) : MapperOut K S :=
  let popped := dpopD us0 none (UVal.lst [])
  let nonKeyed := popped.1.toPyList
  let us1 := popped.2
  let states := dict_to_list maps
  let out := states.foldl
    (fun (acc : List (PyDict (Option K) (UVal S)) × PyDict (Option K) (UVal S)) elem =>
      let us' := dupdate acc.2 (elem.map (fun p => (p.1, UVal.st p.2)))
      let us'' := dset us' none
        (UVal.lst (((dget us' none).getD (UVal.lst [])).toPyList ++ nonKeyed))
      (acc.1 ++ [us''], us''))
    ([], us1)
  ⟨out.1, out.2⟩

/-- Resolving every child future of `DaskExecutor.map`: future `i` yields
`fn` applied to the `upstream_states` snapshot submitted for child `i`. -/
def DaskExecutor.mapResolve {K S R : Type} [DecidableEq K]
    (fn : PyDict (Option K) (UVal S) → R) (maps : PyDict (Option K) (List S))
    (us0 : PyDict (Option K) (UVal S)) : List R :=
  (mapper maps us0).snapshots.map fn

/-- `DaskExecutor.map` with `maps` / `upstream_states` left at their `None`
defaults: the organizer task raises before submitting any child and the
coordinating `gather` re-raises.  `upstream_states.pop` is the first
operation (`AttributeError` on `None`); `dict_to_list(maps)` then iterates
the non-dict `maps`. -/
def DaskExecutor.mapO {K S : Type} [DecidableEq K]
    (maps : Option (PyDict (Option K) (List S)))
    (us : Option (PyDict (Option K) (UVal S))) : Except PyErr (MapperOut K S) :=
  match us with
  | none => .error .attributeError
  | some u =>
    match maps with
    | none => .error .attributeError
    | some m => .ok (mapper m u)

/-! ### SynchronousExecutor.map upstream-state handling -/

/-- A value of the `maps` / `upstream_states` dicts handled by
`SynchronousExecutor.map`: either already a `dask.bag.Bag` of rows (`bag`)
or a not-yet-bagged state container (`plain`). -/
inductive SVal (S : Type) where
  | bag : List S → SVal S
  | plain : List S → SVal S
deriving DecidableEq

/-- `isinstance(v, dask.bag.Bag)`. -/
def SVal.isBag {S : Type} : SVal S → Bool
  | .bag _ => true
  | .plain _ => false

/-- Modelled from the spec: `state_to_list` lives in
`prefect.utilities.executors`, which is imported by the executors but
absent from `src/`.  Per the spec it pulls a state container apart into the
sequence of its element states, "each element becomes a row". -/
def state_to_list {S : Type} : SVal S → List S
  | .bag l => l
  | .plain l => l

/-- The `needs_bagging` dict comprehension of `SynchronousExecutor.map`
(src lines 163-168): every entry of `maps` whose value is not already a
`dask.bag.Bag` is rebuilt as
`dask.bag.from_delayed(dask.delayed(state_to_list)(v))` — a bag whose rows
are `state_to_list v`.  (The comprehension's `k in maps` test is always
true while iterating `maps.items()`.) -/
def needs_bagging {K S : Type} [DecidableEq K] (maps : PyDict K (SVal S)) :
    PyDict K (SVal S) :=
  (maps.filter (fun p => ! p.2.isBag)).map
    (fun p => (p.1, SVal.bag (state_to_list p.2)))

/-- The dict state produced by `SynchronousExecutor.map`'s upstream-state
manipulation (src lines 155-170): the popped non-keyed values and the final
`maps` / `upstream_states` dicts. -/
structure SyncMapStates (K S : Type) where
  mappedNonKeyed : SVal S
  nonKeyed : SVal S
  maps : PyDict (Option K) (SVal S)
  us : PyDict (Option K) (SVal S)
deriving DecidableEq

/-- The upstream-state manipulation prefix of `SynchronousExecutor.map`
(src lines 155-170), translated step for step:

```
mapped_non_keyed = maps.pop(None, [])
non_keyed = upstream_states.pop(None, [])
needs_bagging = {k: bag(state_to_list(v)) for k, v in maps.items() if not isinstance(v, Bag)}
maps.update(needs_bagging)
upstream_states.update(maps)
```

The subsequent construction of `bagged_states` and the final
`dask.bag.map(fn, ...)` are pure delegation to the external `dask.bag`
collaborator and are not needed by the claims about this prefix. -/
def SynchronousExecutor.mapStates {K S : Type} [DecidableEq K]
    (maps0 us0 : PyDict (Option K) (SVal S)) : SyncMapStates K S :=
  let pm := dpopD maps0 none (SVal.plain [])
  let pu := dpopD us0 none (SVal.plain [])
  let nb := needs_bagging pm.2
  let maps2 := dupdate pm.2 nb
  let us2 := dupdate pu.2 maps2
  ⟨pm.1, pu.1, maps2, us2⟩

/-- `SynchronousExecutor.map` with `maps` / `upstream_states` left at their
`None` defaults: `maps.pop(None, [])` is the very first statement, so a
`None` `maps` raises `AttributeError` there, and otherwise a `None`
`upstream_states` raises on the next line. -/
def SynchronousExecutor.mapO {K S : Type} [DecidableEq K]
    (maps0 : Option (PyDict (Option K) (SVal S)))
    (us0 : Option (PyDict (Option K) (SVal S))) :
    Except PyErr (SyncMapStates K S) :=
  match maps0 with
  | none => .error .attributeError
  | some m =>
    match us0 with
    | none => .error .attributeError
    | some u => .ok (SynchronousExecutor.mapStates m u)

/-! ### Cluster backend (dask.distributed Client) -/

/-- One task submitted to the cluster: the call's fingerprint (`spec`,
standing for function + arguments), the value the task computes (`result`)
and the time the task takes to complete (`duration`). -/
structure TaskRec (A R : Type) where
  spec : A
  result : R
  duration : Nat
deriving DecidableEq

/-- The cluster backend's state: every task record submitted so far.  A
future handle is the index of its record. -/
structure Cluster (A R : Type) where
  tasks : List (TaskRec A R)
deriving DecidableEq

/-- `client.submit(fn, *args, **kwargs, pure=...)`: with `pure=True` the
backend deduplicates by value (an identical already-submitted call's
future is returned); with `pure=False` every call gets a fresh key, so a
new task record is always appended and its fresh index returned. -/
def clientSubmit {A R : Type} [DecidableEq A] (c : Cluster A R)
    (pureFlag : Bool) (t : TaskRec A R) : Nat × Cluster A R :=
  if pureFlag then
    match c.tasks.findIdx? (fun tr => decide (tr.spec = t.spec)) with
    | some i => (i, c)
    | none => (c.tasks.length, ⟨c.tasks ++ [t]⟩)
  else (c.tasks.length, ⟨c.tasks ++ [t]⟩)

/-- `client.gather(futures)` called without a timeout: blocks until every
listed future's task has completed — however long the tasks' durations are
— and returns the concrete results in the order the futures were listed.
`none` when some handle is invalid. -/
def clientGather {A R : Type} (c : Cluster A R) : List Nat → Option (List R)
  | [] => some []
  | f :: fs =>
    match c.tasks[f]?, clientGather c fs with
    | some tr, some rest => some (tr.result :: rest)
    | _, _ => none

/-- The executor object's mutable state: `self.client`, which is `some`
cluster connection inside a `start` scope and `None` outside. -/
structure DaskState (A R : Type) where
  client : Option (Cluster A R)
deriving DecidableEq

/-- Outcome of running a Python block: normal completion or a raised
exception. -/
inductive Outcome (E A : Type) where
  | ok : A → Outcome E A
  | raised : E → Outcome E A
deriving DecidableEq

/-- `DaskExecutor.submit` (src lines 102-116):
`self.client.submit(fn, *args, **kwargs, pure=False)`.  With no live
client (`self.client is None`) Python raises `AttributeError`. -/
def DaskExecutor.submit {A R : Type} [DecidableEq A] (st : DaskState A R)
    (t : TaskRec A R) : Except PyErr (Nat × DaskState A R) :=
  match st.client with
  | none => .error .attributeError
  | some c =>
    let fc := clientSubmit c false t
    .ok (fc.1, ⟨some fc.2⟩)

/-- `DaskExecutor.wait` (src lines 118-130): accepts a `timeout` argument
but returns `self.client.gather(futures)` — the timeout is never passed
on, so the call blocks until completion regardless of it. -/
def DaskExecutor.wait {A R : Type} (st : DaskState A R) (futures : List Nat)
    (timeout : Option Nat) : Except PyErr (List R) :=
  match st.client with
  | none => .error .attributeError
  | some c =>
    match clientGather c futures with
    | some vs => .ok vs
    | none => .error .keyError

/-- `DaskExecutor.start` (src lines 45-57): runs the body with
`self.client` set to a live connection; the `finally` clause sets
`self.client = None` on every exit path, whether the body completed or
raised. -/
def DaskExecutor.startScope {A R : Type} (fresh : Cluster A R)
    (body : DaskState A R → Outcome PyErr (DaskState A R)) :
    Outcome PyErr Unit × DaskState A R :=
  match body ⟨some fresh⟩ with
  | .ok _ => (.ok (), ⟨none⟩)
  | .raised e => (.raised e, ⟨none⟩)

/-! ### Local lazy engine (SynchronousExecutor) -/

/-- The lazy computation graph built by `dask.delayed`: the nodes allocated
so far, each holding the call's fingerprint and the value it evaluates to.
A future is the node's index; two `dask.delayed(fn)(...)` calls always
allocate distinct nodes (impure by default, fresh key per call). -/
structure SyncGraph (A R : Type) where
  nodes : List (A × R)
deriving DecidableEq

/-- `SynchronousExecutor.submit` (src lines 191-203):
`dask.delayed(fn)(*args, **kwargs)` — allocates a fresh lazy node, no
evaluation yet. -/
def SynchronousExecutor.submit {A R : Type} (g : SyncGraph A R) (a : A)
    (r : R) : Nat × SyncGraph A R :=
  (g.nodes.length, ⟨g.nodes ++ [(a, r)]⟩)

/-- `SynchronousExecutor.wait` (src lines 205-218): accepts a `timeout`
argument but returns `dask.compute(futures)[0]` — full evaluation of every
listed node, results in input order, the timeout never consulted. -/
def SynchronousExecutor.wait {A R : Type} (g : SyncGraph A R)
    (futures : List Nat) (timeout : Option Nat) : List (Option R) :=
  futures.map (fun f => g.nodes[f]?.map Prod.snd)


/-! ### Lemmas about the dict model -/

theorem dget_dset {K V : Type} [DecidableEq K] (d : PyDict K V) (k k' : K)
    (v : V) : dget (dset d k v) k' = if k' = k then some v else dget d k' := by
  induction d with
  | nil => simp [dset, dget]
  | cons p rest ih =>
    obtain ⟨k0, v0⟩ := p
    by_cases h0 : k0 = k
    · subst h0
      by_cases h' : k' = k0 <;> simp [dset, dget, h']
    · by_cases h' : k' = k0
      · subst h'
        simp [dset, dget, h0]
      · simp [dset, dget, h0, h', ih]

theorem dget_deraseAll_self {K V : Type} [DecidableEq K] (d : PyDict K V)
    (k : K) : dget (deraseAll d k) k = none := by
  induction d with
  | nil => simp [deraseAll, dget]
  | cons p rest ih =>
    obtain ⟨k0, v0⟩ := p
    by_cases h0 : k0 = k
    · simp [deraseAll, h0, ih]
    · simp [deraseAll, h0, dget, Ne.symm h0, ih]

theorem dget_deraseAll_ne {K V : Type} [DecidableEq K] (d : PyDict K V)
    (k k' : K) (h : k' ≠ k) : dget (deraseAll d k) k' = dget d k' := by
  induction d with
  | nil => simp [deraseAll]
  | cons p rest ih =>
    obtain ⟨k0, v0⟩ := p
    by_cases h0 : k0 = k
    · subst h0
      simp [deraseAll, dget, if_neg h, ih]
    · by_cases h' : k' = k0
      · subst h'
        simp [deraseAll, if_neg h0, dget]
      · simp [deraseAll, if_neg h0, dget, if_neg h', ih]

theorem dget_eq_none_of_not_mem {K V : Type} [DecidableEq K] (d : PyDict K V)
    (k : K) (h : k ∉ d.map Prod.fst) : dget d k = none := by
  induction d with
  | nil => rfl
  | cons p rest ih =>
    obtain ⟨k0, v0⟩ := p
    simp only [List.map_cons, List.mem_cons] at h
    push_neg at h
    simp [dget, if_neg h.1, ih h.2]

theorem dupdate_cons {K V : Type} [DecidableEq K] (d : PyDict K V)
    (p : K × V) (e : PyDict K V) :
    dupdate d (p :: e) = dupdate (dset d p.1 p.2) e := rfl

theorem dget_dupdate {K V : Type} [DecidableEq K] (d e : PyDict K V) (k : K)
    (he : (e.map Prod.fst).Nodup) :
    dget (dupdate d e) k =
      match dget e k with
      | some v => some v
      | none => dget d k := by
  induction e generalizing d with
  | nil => simp [dupdate, dget]
  | cons p e' ih =>
    obtain ⟨k0, v0⟩ := p
    simp only [List.map_cons, List.nodup_cons] at he
    rw [dupdate_cons, ih _ he.2]
    by_cases hk : k = k0
    · subst hk
      have : dget e' k = none := dget_eq_none_of_not_mem e' k he.1
      simp [this, dget, dget_dset]
    · simp [dget, if_neg hk, dget_dset, if_neg hk]

theorem dget_dupdate_none {K V : Type} [DecidableEq K] (d e : PyDict K V)
    (k : K) (hd : dget d k = none) (he : dget e k = none) :
    dget (dupdate d e) k = none := by
  induction e generalizing d with
  | nil => simpa [dupdate] using hd
  | cons p e' ih =>
    obtain ⟨k0, v0⟩ := p
    simp only [dget] at he
    by_cases hk : k = k0
    · simp [hk] at he
    · rw [if_neg hk] at he
      rw [dupdate_cons]
      exact ih _ (by rw [dget_dset, if_neg hk]; exact hd) he

theorem mem_keys_dset {K V : Type} [DecidableEq K] (d : PyDict K V)
    (k k' : K) (v : V) :
    k' ∈ (dset d k v).map Prod.fst ↔ k' ∈ d.map Prod.fst ∨ k' = k := by
  induction d with
  | nil => simp [dset]
  | cons p rest ih =>
    obtain ⟨k0, v0⟩ := p
    by_cases h0 : k0 = k
    · subst h0
      simp [dset]
      tauto
    · simp [dset, h0, ih]
      tauto

theorem nodup_keys_dset {K V : Type} [DecidableEq K] (d : PyDict K V)
    (k : K) (v : V) (h : (d.map Prod.fst).Nodup) :
    ((dset d k v).map Prod.fst).Nodup := by
  induction d with
  | nil => simp [dset]
  | cons p rest ih =>
    obtain ⟨k0, v0⟩ := p
    simp only [List.map_cons, List.nodup_cons] at h
    by_cases h0 : k0 = k
    · subst h0
      simpa [dset, List.nodup_cons] using h
    · simp only [dset, if_neg h0, List.map_cons, List.nodup_cons]
      refine ⟨?_, ih h.2⟩
      intro hmem
      rcases (mem_keys_dset rest k k0 v).mp hmem with hm | he
      · exact h.1 hm
      · exact h0 he

theorem nodup_keys_dupdate {K V : Type} [DecidableEq K] (d e : PyDict K V)
    (h : (d.map Prod.fst).Nodup) : ((dupdate d e).map Prod.fst).Nodup := by
  induction e generalizing d with
  | nil => exact h
  | cons p e' ih =>
    rw [dupdate_cons]
    exact ih _ (nodup_keys_dset _ _ _ h)

theorem keys_needs_bagging {K S : Type} [DecidableEq K]
    (d : PyDict K (SVal S)) :
    (needs_bagging d).map Prod.fst =
      (d.filter (fun p => ! p.2.isBag)).map Prod.fst := by
  simp [needs_bagging, List.map_map]

theorem nodup_keys_needs_bagging {K S : Type} [DecidableEq K]
    (d : PyDict K (SVal S)) (h : (d.map Prod.fst).Nodup) :
    ((needs_bagging d).map Prod.fst).Nodup := by
  rw [keys_needs_bagging]
  exact h.sublist ((List.filter_sublist d).map Prod.fst)

theorem needs_bagging_cons {K S : Type} [DecidableEq K] (k0 : K)
    (v0 : SVal S) (rest : PyDict K (SVal S)) :
    needs_bagging ((k0, v0) :: rest) =
      if v0.isBag then needs_bagging rest
      else (k0, SVal.bag (state_to_list v0)) :: needs_bagging rest := by
  by_cases hb : v0.isBag <;> simp [needs_bagging, List.filter_cons, hb]

theorem dget_needs_bagging {K S : Type} [DecidableEq K]
    (d : PyDict K (SVal S)) (k : K) (hnd : (d.map Prod.fst).Nodup) :
    dget (needs_bagging d) k =
      match dget d k with
      | none => none
      | some v => if v.isBag then none else some (SVal.bag (state_to_list v)) := by
  induction d with
  | nil => simp [needs_bagging, dget]
  | cons p rest ih =>
    obtain ⟨k0, v0⟩ := p
    simp only [List.map_cons, List.nodup_cons] at hnd
    have ihr := ih hnd.2
    by_cases hb : v0.isBag
    · by_cases hk : k = k0
      · subst hk
        have hnone : dget rest k = none := dget_eq_none_of_not_mem rest k hnd.1
        simp [needs_bagging_cons, hb, dget, ihr, hnone]
      · simp [needs_bagging_cons, hb, dget, hk, ihr]
    · by_cases hk : k = k0
      · subst hk
        simp [needs_bagging_cons, hb, dget]
      · simp [needs_bagging_cons, hb, dget, hk, ihr]

theorem dget_needs_bagging_none {K S : Type} [DecidableEq K]
    (d : PyDict K (SVal S)) (k : K) (h : dget d k = none) :
    dget (needs_bagging d) k = none := by
  induction d with
  | nil => simp [needs_bagging, dget]
  | cons p rest ih =>
    obtain ⟨k0, v0⟩ := p
    by_cases hk : k = k0
    · simp [dget, hk] at h
    · simp only [dget, if_neg hk] at h
      by_cases hb : v0.isBag
      · simp [needs_bagging_cons, hb, ih h]
      · simpa [needs_bagging_cons, hb, dget, hk] using ih h

/-! ### Claim theorems -/

/-- C1: the claim says every child of a `DaskExecutor.map` fan-out receives,
under the `None` key of its `upstream_states`, exactly one full copy of the
non-keyed broadcast list — identical for child 0 and child N-1.  The code
violates this: with two mapped elements and non-keyed broadcast `[7]`,
child 0's submitted snapshot holds `[7]` but child 1's holds `[7, 7]` —
the loop body re-appends `non_keyed` to the `None` entry it itself wrote on
the previous iteration, so the broadcast accumulates across children. -/
theorem C1_dask_mapper_accumulates_broadcast :
    (mapper [(some 1, [10, 20])] [(none, UVal.lst [7])]).snapshots.map
        (fun d => dget d none) =
      [some (UVal.lst [7]), some (UVal.lst [7, 7])] ∧
    some (UVal.lst ([7, 7] : List Nat)) ≠ some (UVal.lst [7]) := by
  decide

/-- C2: the claim says `DaskExecutor.wait` with a timeout fails with a
distinguishable timeout condition when the futures are not resolved in
time.  The code violates this: on a cluster whose only task takes 10 time
units, `wait` with timeout 1 still blocks through completion and returns
`.ok [42]`; the result is independent of the timeout argument (which is
never passed to `client.gather`) and is never the backend's distinct
`timeoutError`. -/
theorem C2_dask_wait_ignores_timeout :
    DaskExecutor.wait (⟨some ⟨[⟨0, 42, 10⟩]⟩⟩ : DaskState Nat Nat) [0]
        (some 1) = .ok [42] ∧
    (∀ t t' : Option Nat,
      DaskExecutor.wait (⟨some ⟨[⟨0, 42, 10⟩]⟩⟩ : DaskState Nat Nat) [0] t =
        DaskExecutor.wait (⟨some ⟨[⟨0, 42, 10⟩]⟩⟩ : DaskState Nat Nat) [0] t') ∧
    (∀ t : Option Nat,
      DaskExecutor.wait (⟨some ⟨[⟨0, 42, 10⟩]⟩⟩ : DaskState Nat Nat) [0] t ≠
        .error PyErr.timeoutError) :=
  ⟨rfl, fun _ _ => rfl, fun _ h => nomatch h⟩

/-- C4: the claim says `map` over N elements per key returns exactly N
futures, and resolving future i yields `fn` applied to the i-th mapped
element together with the full broadcast non-keyed arguments.  On
`DaskExecutor` the code violates the second half: with
`maps = {1: [10, 20, 30]}` and broadcast `[7]`, `map` does return 3
futures and child i does get the i-th element under key 1, but child i's
`None` entry holds i+1 copies of the broadcast instead of the full
broadcast once, so the resolved list differs from the claimed one. -/
theorem C4_dask_map_child_arguments :
    DaskExecutor.mapResolve (fun d => d) [(some 1, [10, 20, 30])]
        [(none, UVal.lst [7])] =
      [[(some 1, UVal.st 10), (none, UVal.lst [7])],
       [(some 1, UVal.st 20), (none, UVal.lst [7, 7])],
       [(some 1, UVal.st 30), (none, UVal.lst [7, 7, 7])]] ∧
    (DaskExecutor.mapResolve (fun d => d) [(some 1, [10, 20, 30])]
        [(none, UVal.lst [7])]).length = 3 ∧
    DaskExecutor.mapResolve (fun d => d) [(some 1, [10, 20, 30])]
        [(none, UVal.lst [7])] ≠
      [[(some 1, UVal.st 10), (none, UVal.lst [7])],
       [(some 1, UVal.st 20), (none, UVal.lst [7])],
       [(some 1, UVal.st 30), (none, UVal.lst [7])]] := by
  decide

/-- C5: two independent `submit` calls with an identical task produce two
distinct futures backed by two independent task records — never
deduplicated.  On `DaskExecutor` the two futures are distinct handles and
the cluster holds two separate copies of the task record
(`client.submit(..., pure=False)`); on `SynchronousExecutor` the two
`dask.delayed` calls allocate two distinct graph nodes. -/
theorem C5_submit_never_deduplicated {A R : Type} [DecidableEq A]
    (c : Cluster A R) (t : TaskRec A R) (g : SyncGraph A R) (a : A) (r : R) :
    (∃ f1 st1 f2 st2,
      DaskExecutor.submit (⟨some c⟩ : DaskState A R) t = .ok (f1, st1) ∧
      DaskExecutor.submit st1 t = .ok (f2, st2) ∧
      f1 ≠ f2 ∧
      st2.client = some ⟨c.tasks ++ [t, t]⟩) ∧
    (SynchronousExecutor.submit g a r).1 ≠
      (SynchronousExecutor.submit (SynchronousExecutor.submit g a r).2 a r).1 ∧
    (SynchronousExecutor.submit (SynchronousExecutor.submit g a r).2 a r).2.nodes =
      g.nodes ++ [(a, r), (a, r)] := by
  refine ⟨⟨c.tasks.length, ⟨some ⟨c.tasks ++ [t]⟩⟩, (c.tasks ++ [t]).length,
      ⟨some ⟨(c.tasks ++ [t]) ++ [t]⟩⟩, rfl, rfl, ?_, ?_⟩, ?_, ?_⟩
  · simp
  · simp
  · simp [SynchronousExecutor.submit]
  · simp [SynchronousExecutor.submit]

/-- C6: `SynchronousExecutor.wait` accepts a timeout but it has no effect:
for every graph, future list and pair of timeout values the result is the
same, and it is always the full evaluation of every listed node. -/
theorem C6_sync_wait_timeout_no_effect {A R : Type} (g : SyncGraph A R)
    (futures : List Nat) (t t' : Option Nat) :
    SynchronousExecutor.wait g futures t =
      SynchronousExecutor.wait g futures t' ∧
    SynchronousExecutor.wait g futures t =
      futures.map (fun f => g.nodes[f]?.map Prod.snd) :=
  ⟨rfl, rfl⟩

/-- C8: after `DaskExecutor.start`'s scope exits — whether the body
completed normally or raised — `self.client` is `None` (the `finally`
clause), so a subsequent `submit` without re-entering a new scope raises
instead of succeeding. -/
theorem C8_start_scope_clears_client {A R : Type} [DecidableEq A]
    (fresh : Cluster A R)
    (body : DaskState A R → Outcome PyErr (DaskState A R))
    (t : TaskRec A R) :
    (DaskExecutor.startScope fresh body).2.client = none ∧
    DaskExecutor.submit (DaskExecutor.startScope fresh body).2 t =
      .error PyErr.attributeError := by
  cases hb : body ⟨some fresh⟩ <;>
    simp [DaskExecutor.startScope, DaskExecutor.submit, hb]

/-- C10: both `map` implementations default `maps` and `upstream_states`
to `None`, but calling `map` with either left at `None` fails (the first
operation applied is a dict pop / conversion); contrapositively, `map`
only succeeds when both are dicts. -/
theorem C10_map_requires_dict_arguments {K S : Type} [DecidableEq K]
    (ms us : Option (PyDict (Option K) (SVal S)))
    (md : Option (PyDict (Option K) (List S)))
    (ud : Option (PyDict (Option K) (UVal S)))
    (hs : ms = none ∨ us = none) (hd : md = none ∨ ud = none) :
    isOkE (SynchronousExecutor.mapO ms us) = false ∧
    isOkE (DaskExecutor.mapO md ud) = false := by
  constructor
  · rcases hs with h | h
    · subst h; rfl
    · subst h; cases ms <;> rfl
  · rcases hd with h | h
    · subst h; cases ud <;> rfl
    · subst h; rfl

/-- Witness for C10 at the default arguments (`None`, `None`) of both
implementations. -/
theorem C10_map_requires_dict_arguments_witness :
    (((none : Option (PyDict (Option Nat) (SVal Nat))) = none ∨
        (none : Option (PyDict (Option Nat) (SVal Nat))) = none) ∧
      ((none : Option (PyDict (Option Nat) (List Nat))) = none ∨
        (none : Option (PyDict (Option Nat) (UVal Nat))) = none)) ∧
    (isOkE (SynchronousExecutor.mapO
        (none : Option (PyDict (Option Nat) (SVal Nat)))
        (none : Option (PyDict (Option Nat) (SVal Nat)))) = false ∧
      isOkE (DaskExecutor.mapO
        (none : Option (PyDict (Option Nat) (List Nat)))
        (none : Option (PyDict (Option Nat) (UVal Nat)))) = false) :=
  ⟨⟨Or.inl rfl, Or.inl rfl⟩,
    C10_map_requires_dict_arguments none none none none (Or.inl rfl) (Or.inl rfl)⟩

theorem clientGather_of_valid {A R : Type} (c : Cluster A R) (fs : List Nat)
    (h : ∀ f ∈ fs, f < c.tasks.length) :
    ∃ out : List R, clientGather c fs = some out ∧
      ∀ i : Nat, out[i]? = fs[i]?.bind (fun f => c.tasks[f]?.map TaskRec.result) := by
  induction fs with
  | nil => exact ⟨[], rfl, fun i => by cases i <;> rfl⟩
  | cons f fs' ih =>
    have hf : f < c.tasks.length := h f (by simp)
    have htr : c.tasks[f]? = some c.tasks[f] := List.getElem?_eq_getElem hf
    obtain ⟨out', hout', hidx⟩ := ih (fun g hg => h g (by simp [hg]))
    refine ⟨c.tasks[f].result :: out', ?_, ?_⟩
    · simp [clientGather, htr, hout']
    · intro i
      cases i with
      | zero => simp [htr]
      | succ n => simpa using hidx n

theorem clientGather_congr {A R : Type} (c c' : Cluster A R)
    (hres : c'.tasks.map TaskRec.result = c.tasks.map TaskRec.result)
    (fs : List Nat) : clientGather c' fs = clientGather c fs := by
  induction fs with
  | nil => rfl
  | cons f fs' ih =>
    have h1 : c'.tasks[f]?.map TaskRec.result =
        c.tasks[f]?.map TaskRec.result := by
      rw [← List.getElem?_map, ← List.getElem?_map, hres]
    cases hg : c.tasks[f]? with
    | none =>
      rw [hg] at h1
      have h2 : c'.tasks[f]? = none := by
        cases hg' : c'.tasks[f]? with
        | none => rfl
        | some tr =>
          rw [hg'] at h1
          exact absurd h1 (by simp)
      simp [clientGather, hg, h2, ih]
    | some tr =>
      rw [hg] at h1
      obtain ⟨tr', h2, h3⟩ := Option.map_eq_some'.mp (by simpa using h1)
      cases hgg : clientGather c fs' with
      | none => simp [clientGather, hg, h2, ih, hgg]
      | some rest => simp [clientGather, hg, h2, h3, ih, hgg]

theorem deraseAll_sublist {K V : Type} [DecidableEq K] (d : PyDict K V)
    (k : K) : List.Sublist (deraseAll d k) d := by
  induction d with
  | nil => simp [deraseAll]
  | cons p rest ih =>
    obtain ⟨k0, v0⟩ := p
    by_cases h0 : k0 = k
    · simp only [deraseAll, if_pos h0]
      exact ih.trans (List.sublist_cons_self _ _)
    · simp only [deraseAll, if_neg h0]
      exact ih.cons₂ _

/-- C3: `wait` returns resolved values in exactly the order the futures
were listed, on both executors, independently of completion order.  On
`DaskExecutor`, with every future valid, `wait` succeeds and position `i`
of the output is the result of the task behind future `i`; the output is
unchanged when the cluster's tasks keep the same results but complete on
any other schedule (`c'` with arbitrary durations).  On
`SynchronousExecutor`, position `i` of `wait`'s output is the evaluation
of the node behind future `i`. -/
theorem C3_wait_preserves_input_order {A R : Type} (c c' : Cluster A R)
    (g : SyncGraph A R) (fs : List Nat) (t tS : Option Nat)
    (hval : ∀ f ∈ fs, f < c.tasks.length)
    (hres : c'.tasks.map TaskRec.result = c.tasks.map TaskRec.result) :
    (∃ out : List R,
      DaskExecutor.wait (⟨some c⟩ : DaskState A R) fs t = .ok out ∧
      ∀ i : Nat, out[i]? =
        fs[i]?.bind (fun f => c.tasks[f]?.map TaskRec.result)) ∧
    DaskExecutor.wait (⟨some c'⟩ : DaskState A R) fs t =
      DaskExecutor.wait (⟨some c⟩ : DaskState A R) fs t ∧
    ∀ i : Nat, (SynchronousExecutor.wait g fs tS)[i]? =
      fs[i]?.map (fun f => g.nodes[f]?.map Prod.snd) := by
  obtain ⟨out, hout, hidx⟩ := clientGather_of_valid c fs hval
  refine ⟨⟨out, ?_, hidx⟩, ?_, ?_⟩
  · simp [DaskExecutor.wait, hout]
  · simp [DaskExecutor.wait, clientGather_congr c c' hres fs]
  · intro i
    simp [SynchronousExecutor.wait, List.getElem?_map]

/-- Witness for C3: a cluster with two tasks (results 11 and 22), futures
listed in reverse submission order, and a second cluster with the same
results but swapped durations (the opposite completion order). -/
theorem C3_wait_preserves_input_order_witness :
    ((∀ f ∈ ([1, 0] : List Nat),
        f < (⟨[⟨0, 11, 9⟩, ⟨1, 22, 1⟩]⟩ : Cluster Nat Nat).tasks.length) ∧
      (⟨[⟨0, 11, 1⟩, ⟨1, 22, 9⟩]⟩ : Cluster Nat Nat).tasks.map TaskRec.result =
        (⟨[⟨0, 11, 9⟩, ⟨1, 22, 1⟩]⟩ : Cluster Nat Nat).tasks.map TaskRec.result) ∧
    ((∃ out : List Nat,
        DaskExecutor.wait (⟨some ⟨[⟨0, 11, 9⟩, ⟨1, 22, 1⟩]⟩⟩ : DaskState Nat Nat)
          [1, 0] none = .ok out ∧
        ∀ i : Nat, out[i]? =
          (([1, 0] : List Nat)[i]?).bind
            (fun f => (⟨[⟨0, 11, 9⟩, ⟨1, 22, 1⟩]⟩ :
              Cluster Nat Nat).tasks[f]?.map TaskRec.result)) ∧
      DaskExecutor.wait (⟨some ⟨[⟨0, 11, 1⟩, ⟨1, 22, 9⟩]⟩⟩ : DaskState Nat Nat)
          [1, 0] none =
        DaskExecutor.wait (⟨some ⟨[⟨0, 11, 9⟩, ⟨1, 22, 1⟩]⟩⟩ : DaskState Nat Nat)
          [1, 0] none ∧
      ∀ i : Nat,
        (SynchronousExecutor.wait (⟨[(0, 11), (1, 22)]⟩ : SyncGraph Nat Nat)
            [1, 0] none)[i]? =
          (([1, 0] : List Nat)[i]?).map
            (fun f => (⟨[(0, 11), (1, 22)]⟩ :
              SyncGraph Nat Nat).nodes[f]?.map Prod.snd)) :=
  ⟨⟨by decide, rfl⟩,
    C3_wait_preserves_input_order _ _ _ _ _ _ (by decide) rfl⟩

/-- C7: in `SynchronousExecutor.map`, every keyed entry of `maps` whose
value is not already a bag is converted to a bag whose rows are
`state_to_list` of the value, already-bagged values pass through
unchanged, and the resulting collections replace the originals among the
keyed entries of the final `maps` and `upstream_states` dicts. -/
theorem C7_sync_map_bags_keyed_states {K S : Type} [DecidableEq K]
    (maps0 us0 : PyDict (Option K) (SVal S))
    (hnd : (maps0.map Prod.fst).Nodup) (k : K) (v : SVal S)
    (hk : dget maps0 (some k) = some v) :
    dget (SynchronousExecutor.mapStates maps0 us0).maps (some k) =
      some (if v.isBag then v else SVal.bag (state_to_list v)) ∧
    dget (SynchronousExecutor.mapStates maps0 us0).us (some k) =
      some (if v.isBag then v else SVal.bag (state_to_list v)) := by
  have hnd1 : ((deraseAll maps0 none).map Prod.fst).Nodup :=
    hnd.sublist ((deraseAll_sublist maps0 none).map Prod.fst)
  have hk1 : dget (deraseAll maps0 none) (some k) = some v := by
    rw [dget_deraseAll_ne maps0 none (some k) (by simp)]
    exact hk
  have hnb := dget_needs_bagging (deraseAll maps0 none) (some k) hnd1
  rw [hk1] at hnb
  have hnbk : ((needs_bagging (deraseAll maps0 none)).map Prod.fst).Nodup :=
    nodup_keys_needs_bagging _ hnd1
  have hmaps2 : dget (dupdate (deraseAll maps0 none)
      (needs_bagging (deraseAll maps0 none))) (some k) =
      some (if v.isBag then v else SVal.bag (state_to_list v)) := by
    rw [dget_dupdate _ _ _ hnbk, hnb]
    by_cases hb : v.isBag <;> simp [hb, hk1]
  have hnd2 : ((dupdate (deraseAll maps0 none)
      (needs_bagging (deraseAll maps0 none))).map Prod.fst).Nodup :=
    nodup_keys_dupdate _ _ hnd1
  constructor
  · simpa [SynchronousExecutor.mapStates, dpopD] using hmaps2
  · have hus := dget_dupdate (deraseAll us0 none)
      (dupdate (deraseAll maps0 none) (needs_bagging (deraseAll maps0 none)))
      (some k) hnd2
    rw [hmaps2] at hus
    simpa [SynchronousExecutor.mapStates, dpopD] using hus

/-- Witness for C7: one plain keyed entry (converted to a bag of its
element states) next to an already-bagged entry. -/
theorem C7_sync_map_bags_keyed_states_witness :
    ((([(some 1, SVal.plain [3, 4]), (some 2, SVal.bag [9])] :
        PyDict (Option Nat) (SVal Nat)).map Prod.fst).Nodup ∧
      dget ([(some 1, SVal.plain [3, 4]), (some 2, SVal.bag [9])] :
        PyDict (Option Nat) (SVal Nat)) (some 1) = some (SVal.plain [3, 4])) ∧
    (dget (SynchronousExecutor.mapStates
        [(some 1, SVal.plain [3, 4]), (some 2, SVal.bag [9])]
        [(none, SVal.plain [8])]).maps (some 1) =
      some (if (SVal.plain ([3, 4] : List Nat)).isBag then SVal.plain [3, 4]
        else SVal.bag (state_to_list (SVal.plain [3, 4]))) ∧
    dget (SynchronousExecutor.mapStates
        [(some 1, SVal.plain [3, 4]), (some 2, SVal.bag [9])]
        [(none, SVal.plain [8])]).us (some 1) =
      some (if (SVal.plain ([3, 4] : List Nat)).isBag then SVal.plain [3, 4]
        else SVal.bag (state_to_list (SVal.plain [3, 4])))) :=
  ⟨⟨by decide, by decide⟩,
    C7_sync_map_bags_keyed_states _ _ (by decide) 1 (SVal.plain [3, 4])
      (by decide)⟩

/-- C9 counterexample: the claim says that for every call the caller's
`maps` / `upstream_states` are not left unchanged.  A
`SynchronousExecutor.map` call whose dicts have no `None` entries and
whose only keyed value is already a bag leaves both dicts exactly as they
were: every pop is a no-op and the update rewrites the same value. -/
theorem C9_map_leaves_dicts_unchanged_counterexample :
    (SynchronousExecutor.mapStates
        ([(some 1, SVal.bag [5])] : PyDict (Option Nat) (SVal Nat))
        [(some 1, SVal.bag [5])]).maps = [(some 1, SVal.bag [5])] ∧
    (SynchronousExecutor.mapStates
        ([(some 1, SVal.bag [5])] : PyDict (Option Nat) (SVal Nat))
        [(some 1, SVal.bag [5])]).us = [(some 1, SVal.bag [5])] := by
  decide

/-- C9 (amended): both `map` implementations mutate the dicts they are
given — `SynchronousExecutor.map` pops the `None` entries and overwrites
keyed entries with bagged values, `DaskExecutor`'s `mapper` pops the
`None` entry of its `upstream_states` — so every call whose
`upstream_states` has a `None` entry leaves that dict changed (the `None`
key is gone from `SynchronousExecutor.map`'s final dict, and likewise for
`mapper` when `maps` has no rows); calls without `None` entries and with
already-bagged keyed values can leave the dicts unchanged. -/
theorem C9_map_mutates_dicts_with_none_entry {K S : Type} [DecidableEq K]
    (maps0 usS : PyDict (Option K) (SVal S))
    (usD : PyDict (Option K) (UVal S))
    (hS : dhas usS none = true) (hD : dhas usD none = true) :
    dhas (SynchronousExecutor.mapStates maps0 usS).us none = false ∧
    (SynchronousExecutor.mapStates maps0 usS).us ≠ usS ∧
    dhas (mapper ([] : PyDict (Option K) (List S)) usD).finalUS none = false ∧
    (mapper ([] : PyDict (Option K) (List S)) usD).finalUS ≠ usD := by
  have hm1 : dget (deraseAll maps0 none) (none : Option K) = none :=
    dget_deraseAll_self maps0 none
  have hu1 : dget (deraseAll usS none) (none : Option K) = none :=
    dget_deraseAll_self usS none
  have hnb : dget (needs_bagging (deraseAll maps0 none))
      (none : Option K) = none :=
    dget_needs_bagging_none _ _ hm1
  have hmaps2 : dget (dupdate (deraseAll maps0 none)
      (needs_bagging (deraseAll maps0 none))) (none : Option K) = none :=
    dget_dupdate_none _ _ _ hm1 hnb
  have hus2 : dget (dupdate (deraseAll usS none)
      (dupdate (deraseAll maps0 none)
        (needs_bagging (deraseAll maps0 none)))) (none : Option K) = none :=
    dget_dupdate_none _ _ _ hu1 hmaps2
  have h1 : dhas (SynchronousExecutor.mapStates maps0 usS).us none = false := by
    simp only [SynchronousExecutor.mapStates, dpopD, dhas]
    rw [hus2]
    rfl
  have hmf : (mapper ([] : PyDict (Option K) (List S)) usD).finalUS =
      deraseAll usD none := rfl
  have h3 : dhas (mapper ([] : PyDict (Option K) (List S)) usD).finalUS
      none = false := by
    rw [hmf]
    simp [dhas, dget_deraseAll_self]
  refine ⟨h1, ?_, h3, ?_⟩
  · intro heq
    rw [heq, hS] at h1
    exact Bool.noConfusion h1
  · intro heq
    rw [heq, hD] at h3
    exact Bool.noConfusion h3

/-- Witness for the amended C9 at dicts holding a `None` entry. -/
theorem C9_map_mutates_dicts_with_none_entry_witness :
    (dhas ([(none, SVal.plain [])] : PyDict (Option Nat) (SVal Nat))
        none = true ∧
      dhas ([(none, UVal.lst [3])] : PyDict (Option Nat) (UVal Nat))
        none = true) ∧
    (dhas (SynchronousExecutor.mapStates ([] : PyDict (Option Nat) (SVal Nat))
        [(none, SVal.plain [])]).us none = false ∧
      (SynchronousExecutor.mapStates ([] : PyDict (Option Nat) (SVal Nat))
        [(none, SVal.plain [])]).us ≠ [(none, SVal.plain [])] ∧
      dhas (mapper ([] : PyDict (Option Nat) (List Nat))
        [(none, UVal.lst [3])]).finalUS none = false ∧
      (mapper ([] : PyDict (Option Nat) (List Nat))
        [(none, UVal.lst [3])]).finalUS ≠ [(none, UVal.lst [3])]) :=
  ⟨⟨by decide, by decide⟩,
    C9_map_mutates_dicts_with_none_entry [] [(none, SVal.plain [])]
      [(none, UVal.lst [3])] (by decide) (by decide)⟩

end PrefectDask
